import Mathlib

/-!
Verification of the padchat-sdk connection/correlation/dispatch core
(`src/index.js`) against its natural-language specification.

The JavaScript code is shallowly embedded: JSON-like runtime values become
the inductive type `JVal`; object mutation is embedded as explicit value
passing (a function returns the post-mutation view of each object the
caller can still reach); promise wiring is embedded as a function from the
outcomes of the inner promises to the outcome of the outer promise; the
event-emitter calls performed by a handler are collected into a `List Event`.
`JSON.parse` is a platform builtin, so it is passed around as an oracle
`parse : String → Option JVal` (`none` embeds a parse exception).
-/

/-- A JavaScript runtime value as it appears in this client: JSON values
plus `undefined` (assignments such as `item.mType = item.subType` can store
`undefined` when the source field is absent). Objects are ordered key-value
lists, matching JS property insertion order. -/
inductive JVal where
  | undefined
  | null
  | bool (b : Bool)
  | num (n : Int)
  | str (s : String)
  | arr (elems : List JVal)
  | obj (fields : List (String × JVal))

namespace JVal

/-- JS truthiness of a value (`if (v)`): `undefined`, `null`, `false`, `0`
and the empty string are falsy; every object and array is truthy. -/
def truthy : JVal → Bool
  | .undefined => false
  | .null => false
  | .bool b => b
  | .num n => n != 0
  | .str s => s ≠ ""
  | .arr _ => true
  | .obj _ => true

/-- Property read `v[k]` on an object: `none` embeds JS `undefined` for an
absent key or a non-object receiver (the claims never read properties of
`null`/`undefined`, whose read would throw). -/
def getField : JVal → String → Option JVal
  | .obj kvs, k => (kvs.find? (fun kv => kv.1 = k)).map (·.2)
  | _, _ => none

/-- Property write on a key-value list: JS assignment overwrites an existing
key in place, otherwise appends the key at the end. -/
def setKV (kvs : List (String × JVal)) (k : String) (v : JVal) :
    List (String × JVal) :=
  if kvs.any (fun kv => kv.1 = k) then
    kvs.map (fun kv => if kv.1 = k then (k, v) else kv)
  else
    kvs ++ [(k, v)]

/-- Property write `v[k] = x` (no-op on non-objects, as no claim writes a
property of a primitive). -/
def setField : JVal → String → JVal → JVal
  | .obj kvs, k, v => .obj (setKV kvs k v)
  | w, _, _ => w

/-- `delete v[k]`. -/
def deleteField : JVal → String → JVal
  | .obj kvs, k => .obj (kvs.filter (fun kv => ¬ kv.1 = k))
  | w, _ => w

end JVal

/-- Rewrites one snake_case key to camelCase: each underscore is dropped and
the character following it upper-cased. -/
def snakeToCamel (s : String) : String :=
  ⟨go s.data⟩
where
  go : List Char → List Char
    | [] => []
    | '_' :: c :: rest => c.toUpper :: go rest
    | c :: rest => c :: go rest

/-- Rewrites one camelCase key to snake_case: each upper-case character is
replaced by an underscore followed by its lower-case form. -/
def camelToSnake (s : String) : String :=
  ⟨s.data.flatMap (fun c => if c.isUpper then ['_', c.toLower] else [c])⟩

mutual

/-- Modelled from the spec: `Helper.toCamelCase` lives in `helper.js`, which
is not among the sources; §4.3 clause 1 describes it as rewriting every
mapping key from snake_case to camelCase, recursing into nested mappings and
sequences, and passing scalars through unchanged. (The embedded-JSON decoding
of §4.3 clause 2 appears inline in `onWsMsg` in `src/index.js` and is
embedded there, not here.) -/
def toCamelCase : JVal → JVal
  | .arr xs => .arr (toCamelCaseList xs)
  | .obj kvs => .obj (toCamelCaseKVs kvs)
  | v => v

def toCamelCaseList : List JVal → List JVal
  | [] => []
  | v :: rest => toCamelCase v :: toCamelCaseList rest

def toCamelCaseKVs : List (String × JVal) → List (String × JVal)
  | [] => []
  | (k, v) :: rest => (snakeToCamel k, toCamelCase v) :: toCamelCaseKVs rest

end

mutual

/-- Modelled from the spec: `Helper.toUnderLine` lives in `helper.js`, which
is not among the sources; it is the inverse casing direction of the
Normalizer of §4.3 — every mapping key rewritten from camelCase to
snake_case, recursing into nested mappings and sequences, scalars unchanged,
producing a new structure (a converted copy, not an in-place rewrite). -/
def toUnderLine : JVal → JVal
  | .arr xs => .arr (toUnderLineList xs)
  | .obj kvs => .obj (toUnderLineKVs kvs)
  | v => v

def toUnderLineList : List JVal → List JVal
  | [] => []
  | v :: rest => toUnderLine v :: toUnderLineList rest

def toUnderLineKVs : List (String × JVal) → List (String × JVal)
  | [] => []
  | (k, v) :: rest => (camelToSnake k, toUnderLine v) :: toUnderLineKVs rest

end

/-!
## Send side: `sendCmd`, `asyncSend`, `_send`, `getCmdRecv`
-/

/-- `clearRawMsg(obj)` (src/index.js lines 2544-2549): when the argument is
an object (`typeof obj === 'object'`), `delete obj.data` removes its `data`
property in place and the same object is returned; other values pass
through. In JS `typeof` also calls arrays (and `null`) objects; `delete` on
an array without a `data` property is a no-op, and the only call site guards
the argument with a truthiness test so `null` never reaches the `delete`. -/
def clearRawMsg : JVal → JVal
  | .obj kvs => .obj (kvs.filter (fun kv => ¬ kv.1 = "data"))
  | v => v

/-- The frame object literal built by `sendCmd` (line 167-171):
`{ type: 'user', cmd, data }`. -/
def mkUserFrame (cmd : String) (data : JVal) : JVal :=
  .obj [("type", .str "user"), ("cmd", .str cmd), ("data", data)]

/-- `sendCmd`'s payload preparation (lines 160-165): when `data.rawMsgData`
is truthy, the caller's `rawMsgData` object is cleaned in place by
`clearRawMsg` and the payload's `rawMsgData` property is then re-assigned to
`Helper.toUnderLine` of it. The first component is the payload as it will be
transmitted; the second is the post-call view of the object the caller
passed as `rawMsgData` (it aliases the object mutated by `clearRawMsg`, but
not the fresh structure produced by `toUnderLine`), `none` when the branch
was not taken. -/
def sendCmdPrep (data : JVal) : JVal × Option JVal :=
  match data.getField "rawMsgData" with
  | some raw =>
      if raw.truthy then
        let cleared := clearRawMsg raw
        (data.setField "rawMsgData" (toUnderLine cleared), some cleared)
      else (data, none)
  | none => (data, none)

/-- `asyncSend`'s correlation-id injection (lines 130-132): the object passed
to `asyncSend` — for `sendCmd` callers this is the whole frame, not its
`data` member — gains a top-level `cmdId` property freshly generated by
`UUID.v1()` whenever its current `cmdId` is not truthy. -/
def asyncSendPrep (frame : JVal) (freshId : String) : JVal :=
  if ((frame.getField "cmdId").getD .undefined).truthy then frame
  else frame.setField "cmdId" (.str freshId)

/-- The frame `sendCmd cmd payload` hands to `this._send` for serialization,
`freshId` standing for the `UUID.v1()` value: payload preparation, the
`{type,cmd,data}` literal, then `asyncSend`'s `cmdId` injection. -/
def sendCmdFrame (cmd : String) (data : JVal) (freshId : String) : JVal :=
  asyncSendPrep (mkUserFrame cmd (sendCmdPrep data).1) freshId

/-- The frame shape claimed by the spec (§6): `{ "type": "user", "cmd":
<command-name>, "data": { ...commandFields, "cmdId": <correlation-id> } }` —
with the correlation id inside the `data` object. Stated from the spec's
words only, for comparison with `sendCmdFrame`. -/
def specClaimedFrame (cmd : String) (dataFields : List (String × JVal))
    (cmdId : String) : JVal :=
  .obj [("type", .str "user"), ("cmd", .str cmd),
        ("data", .obj (dataFields ++ [("cmdId", .str cmdId)]))]

/-- The millisecond delay `getCmdRecv` registers with `setTimeout`
(line 2333-2336): `timeout * 1000`, although the `timeout` parameter is
documented in milliseconds (its doc comment calls the default `3000`
"3 seconds") and `asyncSend` passes it a millisecond value (default
`30000`). -/
def getCmdRecvDelay (timeout : Nat) : Nat := timeout * 1000

/-- Settlement of a JS promise, as observed by its consumer: fulfilled with
a value, rejected with a reason, or never settled at all. -/
inductive POutcome (α : Type) where
  | fulfilled (v : α)
  | rejected (e : String)
  | pending

/-- The promise wiring of `asyncSend` (lines 133-148), embedded as a
function from the outcomes of the two inner promises to the outcome of the
promise `asyncSend` returns. The executor attaches `.then(data =>
res(data.data))` to the `getCmdRecv` promise — with no rejection handler —
and `.then(ret => ret)` to the `_send` promise — also with no rejection
handler — so the outer `res` runs exactly when `getCmdRecv` fulfills, and
`rej` runs only for a synchronous throw inside the `try` block, which cannot
happen because calling an `async function` never throws synchronously (its
errors become rejections of the returned promise). A rejection of either
inner promise therefore never settles the outer promise: it is an unhandled
promise rejection. -/
def asyncSendOutcome (recvOutcome : POutcome JVal) (sendOutcome : POutcome Unit) :
    POutcome JVal :=
  match recvOutcome, sendOutcome with
  | .fulfilled v, _ => .fulfilled ((v.getField "data").getD .undefined)
  | _, _ => .pending

/-- `_send`'s rejection reason when the socket is not connected
(line 107-109): the executor calls `reject('websocket未连接!')` with a plain
string. (Execution then falls through to `this.ws.send`, but a promise
settles only once, so the first rejection stands.) -/
def sendNotConnectedReason : String := "websocket not connected"

/-- `_send` (lines 105-118) as a function from the transport's condition to
the outcome of the promise it returns. `connected` stands for the guard
`this.connected && this.ws instanceof Websocket`; `wsFault` is the error the
`ws.send` callback may deliver asynchronously. When the guard fails the
promise rejects at once with the not-connected reason (the executor then
still falls through to `this.ws.send`, but a promise settles only once). -/
def sendOutcomeOf (connected : Bool) (wsFault : Option String) : POutcome Unit :=
  if connected then
    match wsFault with
    | some e => .rejected ("ws send failed: " ++ e)
    | none => .fulfilled ()
  else .rejected sendNotConnectedReason

/-!
## The per-request lifecycle registered by `getCmdRecv` (lines 2331-2343)

For one correlation id, `getCmdRecv` registers a `setTimeout` timer and a
`this.once('RET#'+cmdId, ...)` listener. The timer callback first calls
`removeAllListeners` for the id and then rejects; the listener (removed by
`once` upon firing) first calls `clearTimeout` and then resolves. We embed
this pair as a state machine driven by the two scheduler events that can
occur — the timer firing and a matching reply being emitted — and record
every `res`/`rej` call the handlers perform.
-/

/-- Scheduler events that can reach one `getCmdRecv` registration: its timer
fires, or `onWsMsg` emits the matching `RET#` event. -/
inductive ReqAction where
  | timerFires
  | replyArrives

/-- The two settlement calls a registration can perform on its promise. -/
inductive ReqOutcome where
  | resolved
  | timedOut
  deriving DecidableEq

/-- Live interest of one `getCmdRecv` registration: whether its `once`
listener is still installed and whether its timer is still scheduled. -/
structure ReqState where
  listenerActive : Bool
  timerActive : Bool
  deriving DecidableEq

/-- The state right after `getCmdRecv` runs: timer set, listener installed. -/
def ReqState.init : ReqState := ⟨true, true⟩

/-- One scheduler event hitting the registration, returning the new state
and the settlement calls performed. A timer only runs its callback if it is
still scheduled (not cleared); the callback removes the listener
(`removeAllListeners`) and rejects, and a fired timer never fires again. A
`RET#` emission only reaches the listener if it is still installed; `once`
removes it, and the handler clears the timer (`clearTimeout`) and
resolves. -/
def ReqState.step : ReqState → ReqAction → ReqState × List ReqOutcome
  | s, .timerFires =>
      if s.timerActive then (⟨false, false⟩, [.timedOut])
      else (s, [])
  | s, .replyArrives =>
      if s.listenerActive then (⟨false, false⟩, [.resolved])
      else (s, [])

/-- Runs a whole sequence of scheduler events, collecting every settlement
call performed along the way. -/
def ReqState.run : ReqState → List ReqAction → ReqState × List ReqOutcome
  | s, [] => (s, [])
  | s, a :: rest =>
      let (s1, out) := s.step a
      let (s2, outs) := s1.run rest
      (s2, out ++ outs)

/-!
## Receive side: `onWsMsg` (lines 2352-2535)

The handler is embedded as a function from the inbound frame to the list of
`emit` calls it performs. It writes no instance state, so each frame is
processed independently of every other. A JS exception escaping the handler
(a property read on `null`/`undefined`, or calling `forEach` on a
non-array) is recorded as a `.thrown` pseudo-event ending the list.
-/

/-- One `emit` call performed by the receive handler (plus `.thrown`, which
records an exception escaping it). -/
inductive Event where
  | error (reason : String)
  | warn (reason : String)
  | warnUnmatched (cmdId : String)
  | warnServer (errField : JVal) (successField : JVal)
  | msg (frame : JVal)
  | ret (cmdId : String) (frame : JVal)
  | named (event : String) (payload : JVal) (msgField : JVal)
  | push (item : JVal)
  | other (frame : JVal)
  | thrown (reason : String)

/-- Tag for the single `error` event of the parse-failure path (line 2362):
the source text is `'解析msg数据失败: ' + e.message`, covering both a
non-string frame and invalid JSON. -/
def parseFailReason : String := "parse msg failed"

/-- Tag for the malformed-push `error` event (line 2504, `'推送数据异常！'`). -/
def pushMalformedReason : String := "malformed push data"

/-- Tag for the TypeError of reading a property of `null`/`undefined`. -/
def readNullReason : String := "TypeError: property read on null"

/-- Tag for `getCmdRecv`'s timeout rejection (line 2335,
`'等待指令操作结果超时！...'`). -/
def timeoutReason : String := "command result timeout"

/-- JS string coercion `'RET#' + cmdId` applied to the `cmdId` value.
Containers are modelled coarsely (JS would join array elements and print
`[object Object]`); every claim only reaches the string case. -/
def jsStringOf : JVal → String
  | .str s => s
  | .num n => toString n
  | .bool b => toString b
  | .null => "null"
  | .undefined => "undefined"
  | .arr _ => "array"
  | .obj _ => "object"

/-- A property read `v.field` on this value throws a TypeError in JS
(reads on other primitives just yield `undefined`). -/
def throwsOnRead : JVal → Bool
  | .null => true
  | .undefined => true
  | _ => false

/-- `if (x[f]) try { x[f] = JSON.parse(x[f]) } catch (e) { }` — the decode
step used for `external`, `member` and the allow-listed info fields
(lines 2370-2375, 2396-2401, 2423-2428): skipped when the field is absent or
falsy; a string value is replaced by its parse when the parse succeeds and
left untouched when it throws. A truthy non-string value is modelled as
unchanged: `JSON.parse` coerces its argument to a string, so numbers and
booleans re-parse to themselves and objects/arrays throw into the
surrounding catch. -/
def tryDecodeField (parse : String → Option JVal) (v : JVal) (f : String) :
    JVal :=
  match v.getField f with
  | some (.str s) =>
      if s ≠ "" then
        match parse s with
        | some p => v.setField f p
        | none => v
      else v
  | _ => v

/-- The allow-listed info sub-fields decoded by `onWsMsg` (lines 2383-2393). -/
def infoJsonFields : List String :=
  ["BrandInfo", "externalInfo", "MMBizMenu", "RegisterSource",
   "VerifySource", "Location", "cookies", "brandInfo", "BindWxaInfo"]

/-- The `fields.forEach` pass over one record (lines 2396-2401, 2412-2417). -/
def decodeInfoFields (parse : String → Option JVal) (v : JVal) : JVal :=
  infoJsonFields.foldl (tryDecodeField parse) v

/-- One entry of the `searchMp` second-level list (lines 2409-2418): a
`null`/`undefined` entry throws at the `_item2[field]` read (aborting the
loop), an object gets the fields pass, anything else reads `undefined` for
every field and is skipped. The Bool records the abort. -/
def decodeSearchItem (parse : String → Option JVal) (v : JVal) : JVal × Bool :=
  if throwsOnRead v then (v, true)
  else (decodeInfoFields parse v, false)

/-- The `_item.items.forEach` loop with exception-abort semantics: entries
before a throwing entry keep their updates, the throwing entry and the rest
stay untouched. -/
def decodeSearchItems (parse : String → Option JVal) :
    List JVal → List JVal × Bool
  | [] => ([], false)
  | v :: rest =>
      let (v1, ab) := decodeSearchItem parse v
      if ab then (v1 :: rest, true)
      else
        let (r, ab2) := decodeSearchItems parse rest
        (v1 :: r, ab2)

/-- One entry of `info.data` (lines 2404-2419): `null`/`undefined` throws at
the `d_item.items` read; an entry whose `items` is absent or falsy is
skipped; a truthy non-array `items` throws at `.forEach`; an array gets the
second-level pass. -/
def decodeMpItem (parse : String → Option JVal) (v : JVal) : JVal × Bool :=
  if throwsOnRead v then (v, true)
  else
    match v.getField "items" with
    | some items =>
        if items.truthy then
          match items with
          | .arr l =>
              let (l2, ab) := decodeSearchItems parse l
              (v.setField "items" (.arr l2), ab)
          | _ => (v, true)
        else (v, false)
    | none => (v, false)

/-- The `info.data.forEach` loop with exception-abort semantics. -/
def decodeMpItems (parse : String → Option JVal) :
    List JVal → List JVal × Bool
  | [] => ([], false)
  | v :: rest =>
      let (v1, ab) := decodeMpItem parse v
      if ab then (v1 :: rest, true)
      else
        let (r, ab2) := decodeMpItems parse rest
        (v1 :: r, ab2)

/-- The `info` decode (lines 2377-2421): a truthy string is parsed; on
success the assignment commits before anything later can throw, then the
allow-listed fields are decoded, then `info.data.forEach` runs — when
`info.data` is not an array that call throws into the enclosing catch with
everything committed so far. A parse failure, or a truthy non-string value,
leaves the field untouched. -/
def decodeInfo (parse : String → Option JVal) (dd : JVal) : JVal :=
  match dd.getField "info" with
  | some (.str s) =>
      if s ≠ "" then
        match parse s with
        | some v =>
            let v1 := decodeInfoFields parse v
            let v2 :=
              match v1.getField "data" with
              | some (.arr l) => v1.setField "data" (.arr (decodeMpItems parse l).1)
              | _ => v1
            dd.setField "info" v2
        | none => dd
      else dd
  | _ => dd

/-- The pre-dispatch normalization of `onWsMsg` (lines 2366-2432): when
`data.data` is truthy and `data.data.data` is truthy, decode `external`,
then `info`, then `member` in that inner object; then replace `data.data`
with `Helper.toCamelCase` of it. -/
def preprocessFrame (parse : String → Option JVal) (frame : JVal) : JVal :=
  match frame.getField "data" with
  | some d =>
      if d.truthy then
        let d1 :=
          match d.getField "data" with
          | some dd =>
              if dd.truthy then
                let dd1 := tryDecodeField parse dd "external"
                let dd2 := decodeInfo parse dd1
                let dd3 := tryDecodeField parse dd2 "member"
                d.setField "data" dd3
              else d
          | none => d
        frame.setField "data" (toCamelCase d1)
      else frame
  | none => frame

/-- The noise filter of the push loop (lines 2508-2512): an item survives
when `item.msgType` is defined and is neither of the sentinel numbers `2048`
and `32768` (strict `===` comparisons, so e.g. the string `"2048"` or `null`
survive). -/
def survives (item : JVal) : Bool :=
  match item.getField "msgType" with
  | none => false
  | some .undefined => false
  | some (.num 2048) => false
  | some (.num 32768) => false
  | some _ => true

/-- `item.mType = item.msgType === 5 ? item.subType : item.msgType`
(line 2515): the value stored into `mType`. -/
def pushEffType (item : JVal) : JVal :=
  match item.getField "msgType" with
  | some (.num 5) => (item.getField "subType").getD .undefined
  | t => t.getD .undefined

/-- The member-list decode of the push loop (lines 2517-2522):
`item.member = JSON.parse(item.member) || []` inside try/catch, guarded by a
truthiness test. A successful parse replaces the field (a falsy parse result
becomes `[]`); a parse failure leaves the field exactly as it was. Truthy
non-string values are modelled as unchanged (see `tryDecodeField`). -/
def decodePushMember (parse : String → Option JVal) (item : JVal) : JVal :=
  match item.getField "member" with
  | some (.str s) =>
      if s ≠ "" then
        match parse s with
        | some p => item.setField "member" (if p.truthy then p else .arr [])
        | none => item
      else item
  | _ => item

/-- What the push loop does to one surviving item before emitting it
(lines 2515-2523): store `mType`, then decode `member`. -/
def pushEmitItem (parse : String → Option JVal) (item : JVal) : JVal :=
  decodePushMember parse (item.setField "mType" (pushEffType item))

/-- The `data.data.list.forEach` body (lines 2507-2524) with exception-abort
semantics: reading `item.msgType` on a `null`/`undefined` entry throws,
aborting the whole loop (the Bool marks the abort); a non-surviving item is
skipped; a surviving item is emitted as one `push` event. -/
def pushLoop (parse : String → Option JVal) :
    List JVal → List Event × Bool
  | [] => ([], false)
  | item :: rest =>
      if throwsOnRead item then ([], true)
      else if survives item then
        let (evs, ab) := pushLoop parse rest
        (Event.push (pushEmitItem parse item) :: evs, ab)
      else pushLoop parse rest

/-- The `push` case of the dispatcher (lines 2502-2525), given `d =
data.data`: a falsy `d`, a `d.list` that is not an array, or an empty list
yields one malformed-push `error` event; otherwise the loop runs. -/
def pushBranch (parse : String → Option JVal) (d : JVal) : List Event :=
  if d.truthy then
    match d.getField "list" with
    | some (.arr l) =>
        if l.isEmpty then [.error pushMalformedReason]
        else
          let (evs, ab) := pushLoop parse l
          evs ++ (if ab then [.thrown readNullReason] else [])
    | _ => [.error pushMalformedReason]
  else [.error pushMalformedReason]

/-- The `userEvent` event names forwarded verbatim (lines 2493-2500). -/
def namedUserEvents : List String :=
  ["qrcode", "scan", "login", "loaded", "logout", "over", "sns"]

/-- The inner `switch (data.event)` of the dispatcher (lines 2488-2529).
The `warn` case reads `data.data.error` (a TypeError when `data.data` is
`null`/`undefined`) and passes `data.success` (the top-level field, normally
`undefined`) as second emit argument; the named cases emit
`(data.data || {}, data.data.msg)` — the second argument also throws on a
`null`/`undefined` `data.data`; `push` runs the push branch; anything else
becomes `other`. -/
def dispatchUserEvent (parse : String → Option JVal) (frame : JVal) :
    List Event :=
  match frame.getField "event" with
  | some (.str e) =>
      if e = "warn" then
        let d := (frame.getField "data").getD .undefined
        if throwsOnRead d then [.thrown readNullReason]
        else
          [.warnServer ((d.getField "error").getD .undefined)
            ((frame.getField "success").getD .undefined)]
      else if e ∈ namedUserEvents then
        let d := (frame.getField "data").getD .undefined
        if throwsOnRead d then [.thrown readNullReason]
        else
          [.named e (if d.truthy then d else .obj [])
            ((d.getField "msg").getD .undefined)]
      else if e = "push" then
        pushBranch parse ((frame.getField "data").getD .undefined)
      else [.other frame]
  | _ => [.other frame]

/-- The outer `switch (data.type)` of the dispatcher (lines 2476-2534).
For a `cmdRet` frame with a truthy `cmdId` the handler emits
`'RET#' + cmdId` carrying the whole normalized frame; `hasListener` stands
for the emitter's report of whether a `getCmdRecv` listener is installed for
that id — when none is, an unmatched-reply `warn` follows (lines 2480-2483).
A falsy `cmdId` emits nothing; any unrecognized `type` becomes `other`. -/
def dispatchFrame (parse : String → Option JVal) (hasListener : String → Bool)
    (frame : JVal) : List Event :=
  match frame.getField "type" with
  | some (.str t) =>
      if t = "cmdRet" then
        let cid := (frame.getField "cmdId").getD .undefined
        if cid.truthy then
          .ret (jsStringOf cid) frame ::
            (if hasListener (jsStringOf cid) then []
             else [.warnUnmatched (jsStringOf cid)])
        else []
      else if t = "userEvent" then dispatchUserEvent parse frame
      else [.other frame]
  | _ => [.other frame]

/-- An inbound websocket message: a text frame or anything else (Buffer,
binary, ...). -/
inductive WsIn where
  | text (s : String)
  | binary

/-- The whole receive handler `onWsMsg` (lines 2352-2535): a non-string
message or a failed `JSON.parse` emits exactly one global `error` event and
returns; otherwise the frame is normalized, emitted as `msg`, and
dispatched. The handler writes no instance state, so the result depends on
the one frame alone. -/
def onWsMsg (parse : String → Option JVal) (hasListener : String → Bool) :
    WsIn → List Event
  | .binary => [.error parseFailReason]
  | .text s =>
      match parse s with
      | none => [.error parseFailReason]
      | some frame =>
          let frame1 := preprocessFrame parse frame
          .msg frame1 :: dispatchFrame parse hasListener frame1

/-- True when a message takes the parse-failure path of `onWsMsg`. -/
def invalidIn (parse : String → Option JVal) : WsIn → Bool
  | .binary => true
  | .text s => (parse s).isNone

/-- Successive inbound frames, processed in arrival order; `onWsMsg` keeps
no state between frames, so the event stream is the concatenation of the
per-frame streams. -/
def processFrames (parse : String → Option JVal) (hasListener : String → Bool) :
    List WsIn → List Event
  | [] => []
  | i :: rest => onWsMsg parse hasListener i ++ processFrames parse hasListener rest

/-!
## Transport: `start` (lines 71-95)
-/

/-- Ready state of the websocket held in `this.ws`; `none` in the transport
state below stands for the placeholder `this.ws = {}` set by the
constructor, which is not a `Websocket` instance. -/
inductive WsReadyState where
  | connecting
  | isOpen
  | closed
  deriving DecidableEq

/-- The instance state `start` reads and writes: `this._lastStartTime`
(milliseconds) and `this.ws`. -/
structure TransportState where
  lastStartTime : Nat
  ws : Option WsReadyState
  deriving DecidableEq

/-- How a call to `start` ends: the rate-limit throw
(`'建立ws连接时间间隔过短!'`, rejecting the returned promise since `start` is
an async function), or a new socket created — `terminatedPrev` records
whether `this.ws.terminate()` was called on the previous socket first. -/
inductive StartResult where
  | rateLimited
  | started (terminatedPrev : Bool)
  deriving DecidableEq

/-- `start` (lines 71-95). The guard `Date.now() - this._lastStartTime <
200` throws before anything is written, so a rate-limited call leaves the
state — including a previous, still-connecting socket — untouched and calls
no `terminate`. Otherwise `_lastStartTime` is updated and the previous
socket is terminated only when it is a `Websocket` whose `readyState` is
`OPEN`; a fresh connecting socket replaces it. Here `now - last` is `Nat`
truncated subtraction, which agrees with the JS test: for `now ≥ last` the
values coincide, and a clock running backward is rate-limited in both. -/
def start (st : TransportState) (now : Nat) : TransportState × StartResult :=
  if now - st.lastStartTime < 200 then (st, .rateLimited)
  else
    ({ lastStartTime := now, ws := some .connecting },
     .started (st.ws = some .isOpen))

/-!
## Concrete scenario data
-/

/-- The peer reply of spec Scenario A, as `JSON.parse` would deliver it:
`{"type":"cmdRet","cmdId":"X","data":{"success":true,"data":{"user_name":"wxid_1"}}}`. -/
def scenarioAFrame : JVal :=
  .obj [("type", .str "cmdRet"), ("cmdId", .str "X"),
        ("data", .obj [("success", .bool true),
                       ("data", .obj [("user_name", .str "wxid_1")])])]

/-- A `JSON.parse` oracle that recognizes one representative wire text for
Scenario A and fails on everything else. -/
def scenarioAParse : String → Option JVal :=
  fun s => if s = "frameA" then some scenarioAFrame else none

/-- Scenario A after `preprocessFrame`: no embedded-JSON field is present,
so only the key-casing of `data` changes. -/
def scenarioANormalized : JVal :=
  .obj [("type", .str "cmdRet"), ("cmdId", .str "X"),
        ("data", .obj [("success", .bool true),
                       ("data", .obj [("userName", .str "wxid_1")])])]

/-- The push-batch payload of spec Scenario C:
`data.list = [{msgType:2048}, {msgType:5,subType:1,content:"hi"}]`. -/
def scenarioCData : JVal :=
  .obj [("list", .arr
    [.obj [("msgType", .num 2048)],
     .obj [("msgType", .num 5), ("subType", .num 1), ("content", .str "hi")]])]

/-- A parse oracle that always fails — usable wherever no embedded-JSON
field is ever parsed, and as the oracle for invalid wire text. -/
def noParse : String → Option JVal := fun _ => none

/-- The value the push loop leaves in a truthy string `member` field as a
function of the `JSON.parse` outcome: a failed parse leaves the original
string, a successful parse stores the result (`[]` when it is falsy). -/
def memberDecodeResult : Option JVal → String → JVal
  | none, s => .str s
  | some p, _ => if p.truthy then p else .arr []

/-!
## Helper lemmas
-/

theorem JVal.getField_isObj {v : JVal} {k : String} {x : JVal}
    (h : v.getField k = some x) : ∃ kvs, v = .obj kvs := by
  cases v <;> simp [JVal.getField] at h <;> exact ⟨_, rfl⟩

theorem JVal.find?_setKV_same (kvs : List (String × JVal)) (k : String)
    (x : JVal) :
    (JVal.setKV kvs k x).find? (fun kv => kv.1 = k) = some (k, x) := by
  unfold JVal.setKV
  split
  · rename_i h
    induction kvs with
    | nil => simp at h
    | cons kv rest ih =>
        by_cases hk : kv.1 = k
        · simp [List.find?, hk]
        · simp only [List.any_cons, Bool.or_eq_true, decide_eq_true_eq] at h
          rcases h with h | h
          · exact absurd h hk
          · simpa [List.find?, hk] using ih (by simpa using h)
  · rename_i h
    induction kvs with
    | nil => simp [List.find?]
    | cons kv rest ih =>
        simp only [List.any_cons, Bool.or_eq_true, decide_eq_true_eq,
          not_or] at h
        simpa [List.find?, h.1] using ih (by simpa using h.2)

theorem JVal.getField_setField_same (kvs : List (String × JVal)) (k : String)
    (x : JVal) : ((JVal.obj kvs).setField k x).getField k = some x := by
  simp [JVal.setField, JVal.getField, JVal.find?_setKV_same]

theorem JVal.find?_replaceKey (kvs : List (String × JVal)) (k k2 : String)
    (x : JVal) (hne : ¬ k = k2) :
    (kvs.map (fun kv => if kv.1 = k then (k, x) else kv)).find?
        (fun kv => kv.1 = k2) =
      kvs.find? (fun kv => kv.1 = k2) := by
  induction kvs with
  | nil => rfl
  | cons kv rest ih =>
      by_cases hk : kv.1 = k
      · have hk2 : ¬ kv.1 = k2 := by rw [hk]; exact hne
        simp only [List.map_cons, List.find?]
        simpa [hk, decide_eq_false hne, decide_eq_false hk2] using ih
      · simp only [List.map_cons, if_neg hk, List.find?]
        by_cases hk2 : kv.1 = k2
        · simp [hk2]
        · simp only [decide_eq_false hk2]
          exact ih

theorem JVal.find?_appendKey (kvs : List (String × JVal)) (k k2 : String)
    (x : JVal) (hne : ¬ k = k2) :
    (kvs ++ [(k, x)]).find? (fun kv => kv.1 = k2) =
      kvs.find? (fun kv => kv.1 = k2) := by
  induction kvs with
  | nil => simp [List.find?, hne]
  | cons kv rest ih =>
      by_cases hk2 : kv.1 = k2
      · simp [List.find?, hk2]
      · simp only [List.cons_append, List.find?, decide_eq_false hk2]
        exact ih

theorem JVal.find?_setKV_ne (kvs : List (String × JVal)) (k k2 : String)
    (x : JVal) (hne : ¬ k = k2) :
    (JVal.setKV kvs k x).find? (fun kv => kv.1 = k2) =
      kvs.find? (fun kv => kv.1 = k2) := by
  unfold JVal.setKV
  split
  · exact JVal.find?_replaceKey kvs k k2 x hne
  · exact JVal.find?_appendKey kvs k k2 x hne

theorem JVal.getField_setField_ne (v : JVal) (k k2 : String) (x : JVal)
    (hne : ¬ k = k2) :
    (v.setField k x).getField k2 = v.getField k2 := by
  cases v <;> simp [JVal.setField, JVal.getField]
  exact congrArg (Option.map _) (JVal.find?_setKV_ne _ _ _ _ hne)

/-- A dead registration (listener removed, timer cleared) performs no
further settlement, whatever the scheduler delivers. -/
theorem ReqState.run_dead (acts : List ReqAction) :
    ReqState.run ⟨false, false⟩ acts = (⟨false, false⟩, []) := by
  induction acts with
  | nil => rfl
  | cons a rest ih => cases a <;> simp [ReqState.run, ReqState.step, ih]

/-- Over a batch without `null`/`undefined` entries, the push loop emits one
event per surviving item, in order, and does not abort. -/
theorem pushLoop_no_null (parse : String → Option JVal) (l : List JVal)
    (h : ∀ v ∈ l, throwsOnRead v = false) :
    pushLoop parse l =
      ((l.filter survives).map (fun i => Event.push (pushEmitItem parse i)),
       false) := by
  induction l with
  | nil => rfl
  | cons item rest ih =>
      have hitem := h item (List.mem_cons_self _ _)
      have hrest := ih (fun v hv => h v (List.mem_cons_of_mem _ hv))
      cases hs : survives item with
      | true => simp [pushLoop, hitem, hs, hrest, List.filter_cons]
      | false => simp [pushLoop, hitem, hs, hrest, List.filter_cons]

/-- A surviving push item is an object (property reads on every other value
yield `undefined` for `msgType`). -/
theorem survives_isObj {item : JVal} (h : survives item = true) :
    ∃ kvs, item = .obj kvs := by
  cases item <;> simp [survives, JVal.getField] at h <;> exact ⟨_, rfl⟩

/-- The push-member decode touches only the `member` property. -/
theorem decodePushMember_getField_ne (parse : String → Option JVal)
    (v : JVal) (k : String) (hk : ¬ "member" = k) :
    (decodePushMember parse v).getField k = v.getField k := by
  unfold decodePushMember
  split
  · split
    · split
      · exact JVal.getField_setField_ne _ _ _ _ hk
      · rfl
    · rfl
  · rfl

/-- Dropping the `data` entries of a key-value list does not change lookups
of any other key. -/
theorem JVal.find?_filter_ne (kvs : List (String × JVal)) (k : String)
    (hk : ¬ k = "data") :
    ((kvs.filter (fun kv => ¬ kv.1 = "data")).find? (fun kv => kv.1 = k)) =
      kvs.find? (fun kv => kv.1 = k) := by
  rw [List.find?_filter]
  congr 1
  funext a
  by_cases hd : a.1 = "data"
  · have h2 : ¬ "data" = k := fun h => hk h.symm
    simp [hd, h2]
  · simp [hd]

/-- After dropping the `data` entries, a `data` lookup finds nothing. -/
theorem JVal.find?_filter_data (kvs : List (String × JVal)) :
    ((kvs.filter (fun kv => ¬ kv.1 = "data")).find?
      (fun kv => kv.1 = "data")) = none := by
  rw [List.find?_filter, List.find?_eq_none]
  intro a _
  by_cases hd : a.1 = "data" <;> simp [hd]

/-!
## Claim theorems
-/

/-- C1: for every correlation id issued by a send, the asynchronous result
registered by `getCmdRecv` settles at most once — any scheduler interleaving
of timer firings and reply deliveries performs either no settlement, exactly
one fulfillment, or exactly one timeout rejection, never both; and any step
that does settle also removes the pending interest (listener) and cancels
the timer, which is why nothing can settle afterwards. -/
theorem correlator_settles_at_most_once :
    (∀ acts : List ReqAction,
        (ReqState.init.run acts).2 = [] ∨
        (ReqState.init.run acts).2 = [.resolved] ∨
        (ReqState.init.run acts).2 = [.timedOut]) ∧
    (∀ (s : ReqState) (a : ReqAction),
        (s.step a).2 = [] ∨ (s.step a).1 = ⟨false, false⟩) := by
  constructor
  · intro acts
    cases acts with
    | nil => exact Or.inl rfl
    | cons a rest =>
        cases a
        · refine Or.inr (Or.inr ?_)
          simp [ReqState.run, ReqState.init, ReqState.step, ReqState.run_dead]
        · refine Or.inr (Or.inl ?_)
          simp [ReqState.run, ReqState.init, ReqState.step, ReqState.run_dead]
  · intro s a
    cases a
    · by_cases h : s.timerActive = true
      · exact Or.inr (by simp [ReqState.step, h])
      · exact Or.inl (by simp [ReqState.step, h])
    · by_cases h : s.listenerActive = true
      · exact Or.inr (by simp [ReqState.step, h])
      · exact Or.inl (by simp [ReqState.step, h])

/-- C2 (code bug): when the transport send fails — socket not connected, or
the transmission faults — `_send`'s promise does reject with the transport
error, but `asyncSend` attaches no rejection handler to it, so the promise
returned to the caller is never settled by that rejection (and the `try`
block's `catch` is unreachable, since calling an async function cannot throw
synchronously). The caller therefore does not see the immediate rejection
the spec promises: with no reply forthcoming the outer promise stays pending
forever. -/
theorem asyncSend_drops_transport_rejection :
    sendOutcomeOf false none = .rejected sendNotConnectedReason ∧
    (∀ e : String, sendOutcomeOf true (some e) = .rejected ("ws send failed: " ++ e)) ∧
    (∀ e : String,
      asyncSendOutcome .pending (.rejected e) = .pending ∧
      asyncSendOutcome (.rejected timeoutReason) (.rejected e) = .pending ∧
      asyncSendOutcome .pending (.rejected e) ≠ .rejected e) :=
  ⟨rfl, fun _ => rfl, fun e => ⟨rfl, rfl, by simp [asyncSendOutcome]⟩⟩

/-- C3 (code bug): `getCmdRecv` registers its timeout as `timeout * 1000`
milliseconds although the caller supplies milliseconds (`asyncSend`'s
default is `30000`, and `getCmdRecv`'s own doc comment reads its default
`3000` as "3 seconds") — the registered deadline is `now + 1000 × timeout`,
not `now + timeout`; moreover even when the internal rejection fires, it is
not propagated: the promise `asyncSend` returns to the caller stays pending
instead of rejecting with the timeout error. -/
theorem getCmdRecv_timeout_registration :
    getCmdRecvDelay 30000 = 30000000 ∧
    asyncSendOutcome (.rejected timeoutReason) (.fulfilled ()) = .pending ∧
    (∀ e : String,
      asyncSendOutcome (.rejected timeoutReason) (.fulfilled ()) ≠ .rejected e) :=
  ⟨rfl, rfl, fun _ => by simp [asyncSendOutcome]⟩

/-- C4 counterexample: for `sendCmd("init", {})` with fresh id `"u1"`, the
serialized frame carries `cmdId` at top level — a sibling of `data`, not
inside it — so it differs from the spec's claimed shape. -/
theorem sendCmd_cmdId_top_level_cex :
    (sendCmdFrame "init" (.obj []) "u1").getField "cmdId" = some (.str "u1") ∧
    (((sendCmdFrame "init" (.obj []) "u1").getField "data").getD .undefined).getField "cmdId"
      = none ∧
    sendCmdFrame "init" (.obj []) "u1" ≠ specClaimedFrame "init" [] "u1" := by
  refine ⟨rfl, rfl, ?_⟩
  intro h
  rw [show sendCmdFrame "init" (.obj []) "u1" =
        .obj [("type", .str "user"), ("cmd", .str "init"), ("data", .obj []),
              ("cmdId", .str "u1")] from rfl,
      show specClaimedFrame "init" [] "u1" =
        .obj [("type", .str "user"), ("cmd", .str "init"),
              ("data", .obj [("cmdId", .str "u1")])] from rfl] at h
  simp at h

/-- C4 as amended: every frame built by `sendCmd` is
`{type:'user', cmd, data: <prepared payload>, cmdId: <fresh id>}` — the
correlation id sits at top level, and is always freshly generated there,
because the frame literal `sendCmd` passes to `asyncSend` never carries a
top-level `cmdId` (a caller-supplied `cmdId` inside the payload stays inside
`data` and is not the one used for correlation). -/
theorem sendCmd_frame_shape (cmd : String) (data : JVal) (freshId : String) :
    sendCmdFrame cmd data freshId =
      .obj [("type", .str "user"), ("cmd", .str cmd),
            ("data", (sendCmdPrep data).1), ("cmdId", .str freshId)] := rfl

/-- C5 counterexample: the batch `data.list = [null, {msgType:1}]` has one
surviving item, yet the dispatcher emits zero `push` events — reading
`item.msgType` on the `null` entry throws a TypeError out of the handler,
aborting the loop before the surviving item is reached. -/
theorem push_null_item_cex :
    (([JVal.null, .obj [("msgType", .num 1)]]).filter survives).length = 1 ∧
    pushBranch noParse (.obj [("list", .arr [.null, .obj [("msgType", .num 1)]])])
      = [.thrown readNullReason] ∧
    (pushBranch noParse
        (.obj [("list", .arr [.null, .obj [("msgType", .num 1)]])])).countP
      (fun ev => match ev with | .push _ => true | _ => false) = 0 :=
  ⟨rfl, rfl, rfl⟩

/-- C5 as amended: for every push batch whose list is non-empty and contains
no `null`/`undefined` entry, the dispatcher emits exactly one `push` event
per surviving item (primary type defined and not one of the noise sentinels
2048/32768), in the list's original order; and every emitted surviving item
carries `mType` equal to its `subType` when its `msgType` is the compound
marker 5 and equal to its `msgType` otherwise. -/
theorem push_batch_events (parse : String → Option JVal) (d : JVal)
    (l : List JVal) (hl : d.getField "list" = some (.arr l)) (hne : l ≠ [])
    (hnn : ∀ v ∈ l, throwsOnRead v = false) :
    pushBranch parse d =
      (l.filter survives).map (fun i => Event.push (pushEmitItem parse i)) ∧
    ∀ item, survives item = true →
      (pushEmitItem parse item).getField "mType" = some (pushEffType item) := by
  constructor
  · obtain ⟨kvs, rfl⟩ := JVal.getField_isObj hl
    have hloop := pushLoop_no_null parse l hnn
    simp [pushBranch, JVal.truthy, hl, hloop, List.isEmpty_iff, hne]
  · intro item hs
    obtain ⟨kvs, rfl⟩ := survives_isObj hs
    unfold pushEmitItem
    rw [decodePushMember_getField_ne parse _ _ (by decide)]
    exact JVal.getField_setField_same kvs _ _

/-- Witness for the amended C5 — this is exactly spec Scenario C: the batch
`[{msgType:2048}, {msgType:5,subType:1,content:"hi"}]` produces exactly one
`push` event, for the second item, with `mType = 1`. -/
theorem push_batch_events_witness :
    pushBranch noParse scenarioCData =
      [.push (.obj [("msgType", .num 5), ("subType", .num 1),
                    ("content", .str "hi"), ("mType", .num 1)])] := by
  have h := (push_batch_events noParse scenarioCData
      [.obj [("msgType", .num 2048)],
       .obj [("msgType", .num 5), ("subType", .num 1), ("content", .str "hi")]]
      rfl (by simp) (by decide)).1
  rw [h]
  rfl

/-- C6 counterexample: in spec Scenario A the caller's promise does not
resolve with the bare command-specific result `{userName:"wxid_1"}` — the
`RET#` listener receives the whole normalized frame and `asyncSend` resolves
with `data.data`, the `{success,error,msg,data}` wrapper, whose `data` field
holds the command-specific result. -/
theorem scenarioA_resolution_cex :
    asyncSendOutcome (.fulfilled (preprocessFrame scenarioAParse scenarioAFrame))
        (.fulfilled ())
      = .fulfilled (.obj [("success", .bool true),
          ("data", .obj [("userName", .str "wxid_1")])]) ∧
    ¬ asyncSendOutcome (.fulfilled (preprocessFrame scenarioAParse scenarioAFrame))
        (.fulfilled ())
      = .fulfilled (.obj [("userName", .str "wxid_1")]) := by
  refine ⟨rfl, ?_⟩
  intro h
  rw [show asyncSendOutcome
        (.fulfilled (preprocessFrame scenarioAParse scenarioAFrame))
        (.fulfilled ())
      = .fulfilled (.obj [("success", .bool true),
          ("data", .obj [("userName", .str "wxid_1")])]) from rfl] at h
  simp at h

/-- C6 as amended: for the Scenario A reply
`{"type":"cmdRet","cmdId":"X","data":{"success":true,"data":{"user_name":"wxid_1"}}}`,
the handler emits the normalized frame as `msg` and delivers it on
`RET#X`, and the caller's promise resolves with the camelCase-normalized
reply payload `{success:true, data:{userName:"wxid_1"}}` — the
command-specific result sits under its `data` field. -/
theorem scenarioA_resolution :
    onWsMsg scenarioAParse (fun id => id = "X") (.text "frameA") =
      [.msg scenarioANormalized, .ret "X" scenarioANormalized] ∧
    asyncSendOutcome (.fulfilled scenarioANormalized) (.fulfilled ()) =
      .fulfilled (.obj [("success", .bool true),
                        ("data", .obj [("userName", .str "wxid_1")])]) :=
  ⟨rfl, rfl⟩

/-- C7: an inbound frame that is not textual, or whose text fails to parse
as JSON, produces exactly one global `error` event — no `msg`, `push` or
`other` event and no escaping exception — and, frames being processed
independently (the handler keeps no state between frames), the remaining
frames of the stream produce exactly what they would have produced anyway. -/
theorem invalid_frame_single_error (parse : String → Option JVal)
    (hasListener : String → Bool) (i : WsIn) (rest : List WsIn)
    (h : invalidIn parse i = true) :
    onWsMsg parse hasListener i = [.error parseFailReason] ∧
    processFrames parse hasListener (i :: rest) =
      .error parseFailReason :: processFrames parse hasListener rest := by
  have h1 : onWsMsg parse hasListener i = [.error parseFailReason] := by
    cases i with
    | binary => rfl
    | text s =>
        have h2 : (parse s).isNone = true := h
        cases hp : parse s with
        | none => simp [onWsMsg, hp]
        | some v => rw [hp] at h2; simp at h2
  exact ⟨h1, by simp [processFrames, h1]⟩

/-- Witness for C7 at a concrete invalid frame followed by a later frame. -/
theorem invalid_frame_single_error_witness :
    onWsMsg noParse (fun _ => false) (.text "not json") = [.error parseFailReason] ∧
    processFrames noParse (fun _ => false) [.text "not json", .binary] =
      .error parseFailReason :: processFrames noParse (fun _ => false) [.binary] :=
  invalid_frame_single_error noParse (fun _ => false) (.text "not json") [.binary] rfl

/-- C8: a `start` call less than 200 ms after the previous attempt fails
with the rate-limit error and leaves the whole transport state untouched —
in particular a previous, still-connecting socket is neither terminated nor
replaced; a call at or beyond the interval never yields the rate-limit
error (it starts a new socket, terminating the previous one only when that
one is open). -/
theorem start_rate_limit (st : TransportState) (now : Nat) :
    (now - st.lastStartTime < 200 → start st now = (st, .rateLimited)) ∧
    (¬ now - st.lastStartTime < 200 →
      (start st now).2 = .started (st.ws = some .isOpen) ∧
      (start st now).2 ≠ .rateLimited) := by
  constructor
  · intro h; simp [start, h]
  · intro h; simp [start, h]

/-- Witness for C8: a second call 100 ms after the first is rejected with
the previous connecting socket intact; a call 300 ms after is not. -/
theorem start_rate_limit_witness :
    start ⟨1000, some .connecting⟩ 1100 = (⟨1000, some .connecting⟩, .rateLimited) ∧
    (start ⟨1000, some .connecting⟩ 1300).2 ≠ .rateLimited :=
  ⟨(start_rate_limit ⟨1000, some .connecting⟩ 1100).1 (by decide),
   ((start_rate_limit ⟨1000, some .connecting⟩ 1300).2 (by decide)).2⟩

/-- C9 counterexample: for the push item `{msgType:1, member:"oops"}` whose
`member` string fails to parse, the emitted item still carries the original
string — the field is left untouched, not unset. -/
theorem push_member_parse_failure_cex :
    (pushEmitItem noParse
        (.obj [("msgType", .num 1), ("member", .str "oops")])).getField "member"
      = some (.str "oops") ∧
    ¬ (pushEmitItem noParse
        (.obj [("msgType", .num 1), ("member", .str "oops")])).getField "member"
      = none := by
  refine ⟨rfl, ?_⟩
  rw [show (pushEmitItem noParse
        (.obj [("msgType", .num 1), ("member", .str "oops")])).getField "member"
      = some (.str "oops") from rfl]
  simp

/-- C9 as amended: for every push item carrying a non-empty string `member`
field, the loop decodes it in place before emitting and never lets an
exception escape: a successful parse replaces the field with the parsed
structure (`[]` when the parse result is falsy), and a failed parse leaves
the field unchanged — the original string, not unset. -/
theorem push_member_decode (parse : String → Option JVal) (item : JVal)
    (s : String) (hm : item.getField "member" = some (.str s)) (h0 : s ≠ "") :
    (pushEmitItem parse item).getField "member" =
      some (memberDecodeResult (parse s) s) := by
  obtain ⟨kvs, rfl⟩ := JVal.getField_isObj hm
  have hm1 : ((JVal.obj kvs).setField "mType"
      (pushEffType (.obj kvs))).getField "member" = some (.str s) := by
    rw [JVal.getField_setField_ne _ _ _ _ (by decide)]
    exact hm
  unfold pushEmitItem decodePushMember
  simp only [hm1]
  rw [if_pos h0]
  cases hp : parse s with
  | none => exact hm1.trans rfl
  | some p =>
      show ((JVal.obj (JVal.setKV kvs "mType" (pushEffType (.obj kvs)))).setField
          "member" (if p.truthy then p else .arr [])).getField "member" = _
      rw [JVal.getField_setField_same]
      rfl

/-- Witness for the amended C9: a `member` string parsing to the falsy
`null` is replaced by `[]` on the emitted item. -/
theorem push_member_decode_witness :
    (pushEmitItem (fun s => if s = "null" then some .null else none)
        (.obj [("member", .str "null")])).getField "member" = some (.arr []) :=
  push_member_decode (fun s => if s = "null" then some .null else none)
    (.obj [("member", .str "null")]) "null" rfl (by decide)

/-- C10: sending a command mutates the caller's own objects. When the
payload holds a truthy `rawMsgData` object, the caller's object — still
aliased by the caller, e.g. the push item reused for `getMsgImage` — has its
`data` property deleted in place (every other property surviving), while the
transmitted payload's `rawMsgData` is re-bound to a fresh snake_case copy of
the cleaned object; and the frame object handed to `asyncSend` gains a
top-level `cmdId` property it did not have. -/
theorem sendCmd_mutation_effects (data : JVal) (kvs : List (String × JVal))
    (hraw : data.getField "rawMsgData" = some (.obj kvs)) :
    (sendCmdPrep data).2 = some (clearRawMsg (.obj kvs)) ∧
    (clearRawMsg (.obj kvs)).getField "data" = none ∧
    (∀ k, ¬ k = "data" →
      (clearRawMsg (.obj kvs)).getField k = (JVal.obj kvs).getField k) ∧
    (sendCmdPrep data).1.getField "rawMsgData" =
      some (toUnderLine (clearRawMsg (.obj kvs))) ∧
    (∀ cmd freshId, (sendCmdFrame cmd data freshId).getField "cmdId" =
      some (.str freshId)) := by
  obtain ⟨dkvs, rfl⟩ := JVal.getField_isObj hraw
  refine ⟨?_, ?_, ?_, ?_, fun cmd freshId => rfl⟩
  · simp [sendCmdPrep, hraw, JVal.truthy]
  · simp [clearRawMsg, JVal.getField, JVal.find?_filter_data]
  · intro k hk
    show ((kvs.filter (fun kv => ¬ kv.1 = "data")).find?
        (fun kv => kv.1 = k)).map (fun x => x.2) =
      (kvs.find? (fun kv => kv.1 = k)).map (fun x => x.2)
    rw [JVal.find?_filter_ne kvs k hk]
  · have hprep : (sendCmdPrep (JVal.obj dkvs)).1 =
        (JVal.obj dkvs).setField "rawMsgData"
          (toUnderLine (clearRawMsg (.obj kvs))) := by
      simp [sendCmdPrep, hraw, JVal.truthy]
    rw [hprep]
    exact JVal.getField_setField_same dkvs _ _

/-- Witness for C10: a push-item payload `{rawMsgData: {data:"big",
msgId:"1"}}` leaves the caller holding `{msgId:"1"}` (its `data` deleted),
transmits `rawMsgData = {msg_id:"1"}`, and the frame gains the fresh
`cmdId`. -/
theorem sendCmd_mutation_effects_witness :
    (sendCmdPrep (.obj [("rawMsgData",
        .obj [("data", .str "big"), ("msgId", .str "1")])])).2
      = some (.obj [("msgId", .str "1")]) ∧
    (sendCmdPrep (.obj [("rawMsgData",
        .obj [("data", .str "big"), ("msgId", .str "1")])])).1.getField "rawMsgData"
      = some (.obj [("msg_id", .str "1")]) ∧
    (sendCmdFrame "getMsgImage" (.obj [("rawMsgData",
        .obj [("data", .str "big"), ("msgId", .str "1")])]) "u2").getField "cmdId"
      = some (.str "u2") := by
  have h := sendCmd_mutation_effects
    (.obj [("rawMsgData", .obj [("data", .str "big"), ("msgId", .str "1")])])
    [("data", .str "big"), ("msgId", .str "1")] rfl
  exact ⟨h.1.trans rfl, (h.2.2.2.1).trans rfl, h.2.2.2.2 "getMsgImage" "u2"⟩
